import Mathlib

/-!
Verification development for the `tc-class_exporter` program: a Prometheus
exporter that shells out to the `tc` traffic-control CLI per configured
network interface, decodes its JSON output into class / qdisc records, and
republishes the numeric fields as gauge metrics over HTTP.

The repository holds two variants of the program:
* the current two-registry variant (`tc-class_exporter.go`), exposing
  `/metrics` (statistics gauges) and `/params` (parameter gauges), labelled
  by (kind, handle, parent, device);
* an earlier single-interface variant, exposing only `/metrics` with labels
  (class, handle).

The embedding below is a direct translation of both variants.  Effects are
made explicit: the OS interface table and the external command's outcome are
an `Env` argument; the gauge registries are explicit association-list state
threaded through the handlers; each handler also produces the list of
observable events (gauge resets, external command invocations, gauge sets,
serialization) in the order the code performs them.  Machine `float64`
values are modelled by an explicit round-to-nearest-even function on the
integers (`roundF64`, `roundF64Int`); every value the program publishes is
an integer of magnitude below 2^64, whose rounded double is again an
integer, so gauge values are carried as `Int`.
-/

namespace TcExporter

/-- Statistics block embedded in a class record (`type Stats`). -/
structure Stats where
  bytes : Nat
  packets : Nat
  drops : Nat
  overlimits : Nat
  requeues : Nat
  backlog : Nat
  qlen : Nat
  lended : Nat
  borrowed : Nat
  giants : Nat
  tokens : Int
  ctokens : Int
deriving DecidableEq, Repr

/-- A decoded traffic-control class record (`type Class`).  The Go field
`Kind` carries JSON key "class". -/
structure Class where
  device : String
  parent : String
  kind : String
  handle : String
  root : Bool
  leaf : String
  prio : Int
  rate : Nat
  ceil : Nat
  burst : Nat
  cburst : Nat
  stats : Stats
deriving DecidableEq, Repr

/-- Qdisc options block (`type Options`). -/
structure Options where
  r2q : Nat
  directPacketsStat : Nat
  directQlen : Nat
deriving DecidableEq, Repr

/-- A decoded queueing-discipline record (`type Qdisc`). -/
structure Qdisc where
  device : String
  parent : String
  kind : String
  handle : String
  root : Bool
  options : Options
  bytes : Nat
  packets : Nat
  drops : Nat
  overlimits : Nat
  requeues : Nat
  backlog : Nat
  qlen : Nat
deriving DecidableEq, Repr

/-- Outcome of one external-command invocation followed by the JSON decode
of its standard output: the command itself may fail (`cmdErr`, non-zero
exit or I/O error from `cmd.Output()`), the decode may fail (`jsonErr`,
from `json.Unmarshal`), or a list of records is decoded. -/
inductive CmdResult (α : Type) where
  | cmdErr (msg : String)
  | jsonErr (msg : String)
  | ok (records : List α)
deriving DecidableEq, Repr

/-- Whether the invocation and decode both succeeded. -/
def CmdResult.isOk {α : Type} : CmdResult α → Bool
  | .ok _ => true
  | _ => false

/-- The ambient operating system, as the program observes it: which
interface names `net.InterfaceByName` resolves, and what one invocation of
`tc ... class/qdisc show dev <nic>` produces for each interface. -/
structure Env where
  ifaceExists : String → Bool
  tcClass : String → CmdResult Class
  tcQdisc : String → CmdResult Qdisc

/-- The interface-validation loop shared by both collectors: build up
`validNics` by appending each configured name that resolves via
`net.InterfaceByName`. -/
def validateNics (env : Env) (nics : List String) : List String :=
  nics.foldl (fun acc nic => if env.ifaceExists nic then acc ++ [nic] else acc) []

/-- Per-record mutation applied after a successful decode for interface
`nic`: back-fill the device field, and overwrite the parent field with
"root" when the root flag is set (`classes[i].Device = nic; if
classes[i].Root { classes[i].Parent = "root" }`). -/
def fixupClass (nic : String) (c : Class) : Class :=
  let c := { c with device := nic }
  if c.root then { c with parent := "root" } else c

/-- Same mutation for qdisc records. -/
def fixupQdisc (nic : String) (q : Qdisc) : Qdisc :=
  let q := { q with device := nic }
  if q.root then { q with parent := "root" } else q

/-- The per-interface collection loop shared by `collectMetricsClasses` and
`collectMetricsQdiscs`, over the already-validated interface list.  The
second component of the result is the list of interfaces for which an
external command was actually invoked, in invocation order.

Faithful to Go `encoding/json` semantics: `json.Unmarshal(output, &xs)`
resets the destination slice's length to zero before appending the decoded
elements, so each iteration REPLACES the accumulated records with the
current interface's decode (it does not append to them); the fix-up loop
then rewrites every record of that decode. -/
def collectLoop {α : Type} (run : String → CmdResult α) (fix : String → α → α) :
    List String → List α → Except String (List α) × List String
  | [], acc => (.ok acc, [])
  | nic :: rest, _acc =>
    match run nic with
    | .cmdErr msg => (.error ("command error: " ++ msg), [nic])
    | .jsonErr msg => (.error ("json error: " ++ msg), [nic])
    | .ok records =>
      let acc := records.map (fix nic)
      let r := collectLoop run fix rest acc
      (r.1, nic :: r.2)

/-- `collectMetricsClasses`, instrumented with the list of interfaces for
which the external command was invoked. -/
def collectMetricsClassesT (env : Env) (nics : List String) :
    Except String (List Class) × List String :=
  collectLoop env.tcClass fixupClass (validateNics env nics) []

/-- `func collectMetricsClasses(nics []string) ([]Class, error)`. -/
def collectMetricsClasses (env : Env) (nics : List String) :
    Except String (List Class) :=
  (collectMetricsClassesT env nics).1

/-- `collectMetricsQdiscs`, instrumented with the invoked interfaces. -/
def collectMetricsQdiscsT (env : Env) (nics : List String) :
    Except String (List Qdisc) × List String :=
  collectLoop env.tcQdisc fixupQdisc (validateNics env nics) []

/-- `func collectMetricsQdiscs(nics []string) ([]Qdisc, error)`. -/
def collectMetricsQdiscs (env : Env) (nics : List String) :
    Except String (List Qdisc) :=
  (collectMetricsQdiscsT env nics).1

/-- Floor of the base-2 logarithm, with an explicit fuel argument so that
it reduces by kernel computation; `log2Fuel n n` suffices for every `n`,
since the argument halves at each step. -/
def log2Fuel : Nat → Nat → Nat
  | 0, _ => 0
  | fuel + 1, n => if n ≤ 1 then 0 else log2Fuel fuel (n / 2) + 1

/-- Round-to-nearest-even conversion of a natural number to the nearest
IEEE-754 binary64 value, as performed by Go's `float64(x)` conversion of an
unsigned integer.  Every value of magnitude at most 2^53 is representable
exactly; a larger value with bit length `b + 1` keeps a 53-bit significand,
so its low `k = b - 52` bits are rounded away to the nearest multiple of
`2^k`, ties to the even multiple.  Every double produced from an integer
below 2^64 is itself an integer, so the result stays in `Nat`. -/
def roundF64 (n : Nat) : Nat :=
  if n ≤ 2 ^ 53 then n
  else
    let k := log2Fuel n n - 52
    let q := n / 2 ^ k
    let r := n % 2 ^ k
    let half := 2 ^ (k - 1)
    if r < half then q * 2 ^ k
    else if half < r then (q + 1) * 2 ^ k
    else if q % 2 = 0 then q * 2 ^ k
    else (q + 1) * 2 ^ k

/-- `float64` conversion of a signed integer: round the magnitude, keep the
sign. -/
def roundF64Int (z : Int) : Int :=
  z.sign * (roundF64 z.natAbs : Int)

/-- A prometheus `GaugeVec`, modelled as an association list from label
tuple to current value.  `Reset()` is the empty list. -/
abbrev GaugeVec (L : Type) : Type :=
  List (L × Int)

/-- `WithLabelValues(l...).Set(v)`: replace the value of the child with
labels `l`, or create that child. -/
def GaugeVec.set {L : Type} [DecidableEq L] : GaugeVec L → L → Int → GaugeVec L
  | [], l, v => [(l, v)]
  | p :: g, l, v => if p.1 = l then (l, v) :: g else p :: GaugeVec.set g l v

/-- Current value of the child with labels `l`, if that child exists. -/
def GaugeVec.get {L : Type} [DecidableEq L] : GaugeVec L → L → Option Int
  | [], _ => none
  | p :: g, l => if p.1 = l then some p.2 else GaugeVec.get g l

/-- The label tuples currently carrying a sample. -/
def GaugeVec.keys {L : Type} (g : GaugeVec L) : List L :=
  g.map Prod.fst

/-- One prometheus registry holding several named gauge vectors, flattened
to a single association list keyed by (metric name, label tuple). -/
abbrev Registry (L : Type) := GaugeVec (String × L)

/-- Perform a sequence of `Set` calls, in order. -/
def Registry.setMany {L : Type} [DecidableEq L] (g : Registry L)
    (kvs : List ((String × L) × Int)) : Registry L :=
  kvs.foldl (fun g kv => GaugeVec.set g kv.1 kv.2) g

/-- Label tuple of the two-registry variant, in the order the handlers pass
them: `WithLabelValues(x.Kind, x.Handle, x.Parent, x.Device)`. -/
structure Labels where
  kind : String
  handle : String
  parent : String
  device : String
deriving DecidableEq, Repr

def classLabels (c : Class) : Labels :=
  ⟨c.kind, c.handle, c.parent, c.device⟩

def qdiscLabels (q : Qdisc) : Labels :=
  ⟨q.kind, q.handle, q.parent, q.device⟩

/-- The `Set` calls the `/metrics` handler performs for one class record. -/
def classStatsKVs (c : Class) : List ((String × Labels) × Int) :=
  [ (("tc_class_stats_bytes", classLabels c), (roundF64 c.stats.bytes : Int)),
    (("tc_class_stats_packets", classLabels c), (roundF64 c.stats.packets : Int)),
    (("tc_class_stats_drops", classLabels c), (roundF64 c.stats.drops : Int)),
    (("tc_class_stats_overlimits", classLabels c), (roundF64 c.stats.overlimits : Int)),
    (("tc_class_stats_requeues", classLabels c), (roundF64 c.stats.requeues : Int)),
    (("tc_class_stats_lended", classLabels c), (roundF64 c.stats.lended : Int)),
    (("tc_class_stats_borrowed", classLabels c), (roundF64 c.stats.borrowed : Int)) ]

/-- The `Set` calls the `/metrics` handler performs for one qdisc record. -/
def qdiscStatsKVs (q : Qdisc) : List ((String × Labels) × Int) :=
  [ (("tc_qdisc_bytes", qdiscLabels q), (roundF64 q.bytes : Int)),
    (("tc_qdisc_packets", qdiscLabels q), (roundF64 q.packets : Int)),
    (("tc_qdisc_drops", qdiscLabels q), (roundF64 q.drops : Int)),
    (("tc_qdisc_overlimits", qdiscLabels q), (roundF64 q.overlimits : Int)),
    (("tc_qdisc_requeues", qdiscLabels q), (roundF64 q.requeues : Int)),
    (("tc_qdisc_backlog", qdiscLabels q), (roundF64 q.backlog : Int)),
    (("tc_qdisc_qlen", qdiscLabels q), (roundF64 q.qlen : Int)) ]

/-- The `Set` calls the `/params` handler performs for one class record. -/
def classParamsKVs (c : Class) : List ((String × Labels) × Int) :=
  [ (("tc_class_prio", classLabels c), roundF64Int c.prio),
    (("tc_class_rate", classLabels c), (roundF64 c.rate : Int)),
    (("tc_class_ceil", classLabels c), (roundF64 c.ceil : Int)),
    (("tc_class_burst", classLabels c), (roundF64 c.burst : Int)),
    (("tc_class_cburst", classLabels c), (roundF64 c.cburst : Int)) ]

/-- The `Set` calls the `/params` handler performs for one qdisc record. -/
def qdiscParamsKVs (q : Qdisc) : List ((String × Labels) × Int) :=
  [ (("tc_qdisc_options_r2q", qdiscLabels q), (roundF64 q.options.r2q : Int)),
    (("tc_qdisc_options_direct_packets_stat", qdiscLabels q), (roundF64 q.options.directPacketsStat : Int)),
    (("tc_qdisc_options_direct_qlen", qdiscLabels q), (roundF64 q.options.directQlen : Int)) ]

def setClassStats (g : Registry Labels) (c : Class) : Registry Labels :=
  Registry.setMany g (classStatsKVs c)

def setQdiscStats (g : Registry Labels) (q : Qdisc) : Registry Labels :=
  Registry.setMany g (qdiscStatsKVs q)

def setClassParams (g : Registry Labels) (c : Class) : Registry Labels :=
  Registry.setMany g (classParamsKVs c)

def setQdiscParams (g : Registry Labels) (q : Qdisc) : Registry Labels :=
  Registry.setMany g (qdiscParamsKVs q)

/-- Observable events of one request, in the order the handler performs
them: a gauge `Reset()`, an external command invocation, a gauge `Set`, the
final serialization of the registry, or an error response. -/
inductive Ev where
  | reset (gauge : String)
  | cmd (kind : String) (nic : String)
  | set (gauge : String)
  | serialize
  | httpError (status : Nat)
deriving DecidableEq, Repr

def Ev.isCmd : Ev → Bool
  | .cmd _ _ => true
  | _ => false

def Ev.isSet : Ev → Bool
  | .set _ => true
  | _ => false

def Ev.isReset : Ev → Bool
  | .reset _ => true
  | _ => false

/-- The gauges of the statistics group, in the order the `/metrics` handler
resets them. -/
def statsGaugeNames : List String :=
  [ "tc_class_stats_bytes", "tc_class_stats_packets", "tc_class_stats_drops",
    "tc_class_stats_overlimits", "tc_class_stats_requeues",
    "tc_class_stats_lended", "tc_class_stats_borrowed",
    "tc_qdisc_bytes", "tc_qdisc_packets", "tc_qdisc_drops",
    "tc_qdisc_overlimits", "tc_qdisc_requeues",
    "tc_qdisc_backlog", "tc_qdisc_qlen" ]

/-- The gauges of the parameters group, in the order the `/params` handler
resets them. -/
def paramsGaugeNames : List String :=
  [ "tc_class_prio", "tc_class_rate", "tc_class_ceil", "tc_class_burst",
    "tc_class_cburst", "tc_qdisc_options_r2q",
    "tc_qdisc_options_direct_packets_stat", "tc_qdisc_options_direct_qlen" ]

def statsResetEvs : List Ev := statsGaugeNames.map Ev.reset

def paramsResetEvs : List Ev := paramsGaugeNames.map Ev.reset

def setEvsOf {L : Type} (kvs : List ((String × L) × Int)) : List Ev :=
  kvs.map (fun kv => Ev.set kv.1.1)

/-- HTTP response of one request: either the serialized registry state
(status 200) or an error status with a plain-text message. -/
inductive Response (β : Type) where
  | ok (body : β)
  | err (status : Nat) (msg : String)
deriving DecidableEq, Repr

/-- The `/metrics` handler of the two-registry variant, instrumented with
its event trace.  Steps, in source order: reset the 14 statistics gauges;
collect classes (on error: 500 with the error text); collect qdiscs (on
error: 500); set the statistics gauges from every record; serialize the
statistics registry.  The result is (response, registry state after the
request, event trace); the state before the request is irrelevant because
the reset runs unconditionally first. -/
def metricsHandlerT (env : Env) (nics : List String) (_g0 : Registry Labels) :
    Response (Registry Labels) × Registry Labels × List Ev :=
  let g : Registry Labels := []
  match collectMetricsClassesT env nics with
  | (.error e, t1) =>
    (.err 500 e, g, statsResetEvs ++ t1.map (Ev.cmd "class") ++ [.httpError 500])
  | (.ok cs, t1) =>
    match collectMetricsQdiscsT env nics with
    | (.error e, t2) =>
      (.err 500 e, g,
        statsResetEvs ++ t1.map (Ev.cmd "class") ++ t2.map (Ev.cmd "qdisc")
          ++ [.httpError 500])
    | (.ok qs, t2) =>
      let g1 := cs.foldl setClassStats g
      let g2 := qs.foldl setQdiscStats g1
      (.ok g2, g2,
        statsResetEvs ++ t1.map (Ev.cmd "class") ++ t2.map (Ev.cmd "qdisc")
          ++ (cs.map (fun c => setEvsOf (classStatsKVs c))).flatten
          ++ (qs.map (fun q => setEvsOf (qdiscStatsKVs q))).flatten
          ++ [.serialize])

def metricsHandler (env : Env) (nics : List String) (g0 : Registry Labels) :
    Response (Registry Labels) × Registry Labels :=
  ((metricsHandlerT env nics g0).1, (metricsHandlerT env nics g0).2.1)

/-- The `/params` handler of the two-registry variant, instrumented with
its event trace; same structure as `/metrics` over the parameters group. -/
def paramsHandlerT (env : Env) (nics : List String) (_g0 : Registry Labels) :
    Response (Registry Labels) × Registry Labels × List Ev :=
  let g : Registry Labels := []
  match collectMetricsClassesT env nics with
  | (.error e, t1) =>
    (.err 500 e, g, paramsResetEvs ++ t1.map (Ev.cmd "class") ++ [.httpError 500])
  | (.ok cs, t1) =>
    match collectMetricsQdiscsT env nics with
    | (.error e, t2) =>
      (.err 500 e, g,
        paramsResetEvs ++ t1.map (Ev.cmd "class") ++ t2.map (Ev.cmd "qdisc")
          ++ [.httpError 500])
    | (.ok qs, t2) =>
      let g1 := cs.foldl setClassParams g
      let g2 := qs.foldl setQdiscParams g1
      (.ok g2, g2,
        paramsResetEvs ++ t1.map (Ev.cmd "class") ++ t2.map (Ev.cmd "qdisc")
          ++ (cs.map (fun c => setEvsOf (classParamsKVs c))).flatten
          ++ (qs.map (fun q => setEvsOf (qdiscParamsKVs q))).flatten
          ++ [.serialize])

def paramsHandler (env : Env) (nics : List String) (g0 : Registry Labels) :
    Response (Registry Labels) × Registry Labels :=
  ((paramsHandlerT env nics g0).1, (paramsHandlerT env nics g0).2.1)

/-! ### The earliest, single-interface variant -/

/-- Class record of the earliest variant (the Go field `Class` carries JSON
key "class"). -/
structure Class0 where
  kind : String
  handle : String
  root : Bool
  leaf : String
  prio : Int
  rate : Nat
  ceil : Nat
  burst : Nat
  cburst : Nat
  stats : Stats
deriving DecidableEq, Repr

/-- `func boolToFloat64(b bool) float64` (both 0.0 and 1.0 are integral). -/
def boolToFloat64 (b : Bool) : Int :=
  if b then 1 else 0

/-- Label tuple of the earliest variant: (class, handle). -/
abbrev Labels0 := String × String

def class0Labels (c : Class0) : Labels0 :=
  (c.kind, c.handle)

/-- The `Set` calls the earliest variant performs for one record, in source
order. -/
def class0KVs (c : Class0) : List ((String × Labels0) × Int) :=
  [ (("tc_class_root", class0Labels c), boolToFloat64 c.root),
    (("tc_class_prio", class0Labels c), roundF64Int c.prio),
    (("tc_class_rate", class0Labels c), (roundF64 c.rate : Int)),
    (("tc_class_ceil", class0Labels c), (roundF64 c.ceil : Int)),
    (("tc_class_burst", class0Labels c), (roundF64 c.burst : Int)),
    (("tc_class_cburst", class0Labels c), (roundF64 c.cburst : Int)),
    (("tc_class_stats_bytes", class0Labels c), (roundF64 c.stats.bytes : Int)),
    (("tc_class_stats_packets", class0Labels c), (roundF64 c.stats.packets : Int)),
    (("tc_class_stats_drops", class0Labels c), (roundF64 c.stats.drops : Int)),
    (("tc_class_stats_overlimits", class0Labels c), (roundF64 c.stats.overlimits : Int)),
    (("tc_class_stats_requeues", class0Labels c), (roundF64 c.stats.requeues : Int)),
    (("tc_class_stats_lended", class0Labels c), (roundF64 c.stats.lended : Int)),
    (("tc_class_stats_borrowed", class0Labels c), (roundF64 c.stats.borrowed : Int)) ]

def v0GaugeNames : List String :=
  [ "tc_class_root", "tc_class_prio", "tc_class_rate", "tc_class_ceil",
    "tc_class_burst", "tc_class_cburst",
    "tc_class_stats_bytes", "tc_class_stats_packets", "tc_class_stats_drops",
    "tc_class_stats_overlimits", "tc_class_stats_requeues",
    "tc_class_stats_lended", "tc_class_stats_borrowed" ]

def v0ResetEvs : List Ev := v0GaugeNames.map Ev.reset

def setClass0 (g : Registry Labels0) (c : Class0) : Registry Labels0 :=
  Registry.setMany g (class0KVs c)

/-- The `/metrics` handler of the earliest variant, instrumented with its
event trace.  Steps, in source order: run the external command for the one
configured interface (on failure: 500, gauges untouched); decode the JSON
(on failure: 500, gauges untouched); only then reset all 13 gauges; set
them from every record; serialize.  Note the resets happen AFTER a
successful collection, so an erroring request leaves the previous
request's gauge state in place. -/
def metricsHandlerV0T (nic : String) (out : CmdResult Class0)
    (g0 : Registry Labels0) :
    Response (Registry Labels0) × Registry Labels0 × List Ev :=
  match out with
  | .cmdErr m =>
    (.err 500 ("Failed to execute command: " ++ m), g0,
      [.cmd "class" nic, .httpError 500])
  | .jsonErr m =>
    (.err 500 ("Failed to parse JSON: " ++ m), g0,
      [.cmd "class" nic, .httpError 500])
  | .ok cs =>
    let g : Registry Labels0 := []
    let g1 := cs.foldl setClass0 g
    (.ok g1, g1,
      [Ev.cmd "class" nic] ++ v0ResetEvs
        ++ (cs.map (fun c => setEvsOf (class0KVs c))).flatten ++ [.serialize])

def metricsHandlerV0 (nic : String) (out : CmdResult Class0)
    (g0 : Registry Labels0) :
    Response (Registry Labels0) × Registry Labels0 :=
  ((metricsHandlerV0T nic out g0).1, (metricsHandlerV0T nic out g0).2.1)

/-- The label tuples carrying at least one sample in a registry. -/
def Registry.tuples {L : Type} (g : Registry L) : List L :=
  g.map (fun p => p.1.2)

/-! ### Concrete scenarios -/

def stats0 : Stats :=
  ⟨0, 0, 0, 0, 0, 0, 0, 0, 0, 0, 0, 0⟩

/-- An htb leaf class as the external tool reports it (no device field). -/
def classA : Class :=
  { device := "", parent := "1:1", kind := "htb", handle := "1:10",
    root := false, leaf := "", prio := 2, rate := 1000000, ceil := 2000000,
    burst := 1600, cburst := 1600,
    stats := { stats0 with bytes := 500, packets := 10 } }

/-- A root class whose upstream parent field is the empty string. -/
def classB : Class :=
  { device := "", parent := "", kind := "htb", handle := "1:1",
    root := true, leaf := "", prio := 0, rate := 4000000, ceil := 4000000,
    burst := 1600, cburst := 1600,
    stats := { stats0 with bytes := 900, packets := 20 } }

/-- A class whose bytes counter exceeds 2^53 but is representable exactly. -/
def classBig : Class :=
  { classA with stats := { stats0 with bytes := 2 ^ 54 } }

/-- A root htb qdisc with an empty upstream parent field. -/
def qdiscA : Qdisc :=
  { device := "", parent := "", kind := "htb", handle := "1:", root := true,
    options := ⟨10, 0, 1000⟩, bytes := 1400, packets := 30, drops := 0,
    overlimits := 0, requeues := 0, backlog := 0, qlen := 0 }

/-- Host with one live interface `eth0`, on which the external tool reports
two classes and one qdisc. -/
def envOk : Env :=
  { ifaceExists := fun n => n == "eth0"
    tcClass := fun n => if n == "eth0" then .ok [classA, classB] else .ok []
    tcQdisc := fun n => if n == "eth0" then .ok [qdiscA] else .ok [] }

/-- Host with two live interfaces, each reporting one distinct class. -/
def envC1 : Env :=
  { ifaceExists := fun n => n == "eth0" || n == "eth1"
    tcClass := fun n =>
      if n == "eth0" then .ok [classA]
      else if n == "eth1" then .ok [classB] else .ok []
    tcQdisc := fun _ => .ok [] }

/-- Host where the external command fails on `eth0` with exit status 1. -/
def envErr : Env :=
  { ifaceExists := fun n => n == "eth0" || n == "eth1"
    tcClass := fun _ => .cmdErr "exit status 1"
    tcQdisc := fun _ => .cmdErr "exit status 1" }

/-- Host where `eth0` succeeds and the command fails on `eth1` with the
same underlying message as `envErr`. -/
def envErrB : Env :=
  { ifaceExists := fun n => n == "eth0" || n == "eth1"
    tcClass := fun n => if n == "eth0" then .ok [] else .cmdErr "exit status 1"
    tcQdisc := fun n => if n == "eth0" then .ok [] else .cmdErr "exit status 1" }

/-- Host with no live interface at all. -/
def envNone : Env :=
  { ifaceExists := fun _ => false
    tcClass := fun _ => .ok []
    tcQdisc := fun _ => .ok [] }

/-- Record of the earliest variant. -/
def class0A : Class0 :=
  { kind := "htb", handle := "1:10", root := false, leaf := "", prio := 2,
    rate := 100, ceil := 200, burst := 16, cburst := 16,
    stats := { stats0 with bytes := 500, packets := 10 } }

/-- Gauge state the earliest variant's handler leaves after one successful
scrape of `class0A`. -/
def v0Populated : Registry Labels0 :=
  (metricsHandlerV0 "eth0" (.ok [class0A]) []).2

/-- `classA` after the fix-up for interface `eth0`. -/
def classAfix0 : Class :=
  { device := "eth0", parent := "1:1", kind := "htb", handle := "1:10",
    root := false, leaf := "", prio := 2, rate := 1000000, ceil := 2000000,
    burst := 1600, cburst := 1600,
    stats := { stats0 with bytes := 500, packets := 10 } }

/-- `classB` after the fix-up for interface `eth0`. -/
def classBfix0 : Class :=
  { device := "eth0", parent := "root", kind := "htb", handle := "1:1",
    root := true, leaf := "", prio := 0, rate := 4000000, ceil := 4000000,
    burst := 1600, cburst := 1600,
    stats := { stats0 with bytes := 900, packets := 20 } }

/-- `classB` after the fix-up for interface `eth1`. -/
def classBfix1 : Class :=
  { classBfix0 with device := "eth1" }

/-- `qdiscA` after the fix-up for interface `eth0`. -/
def qdiscAfix0 : Qdisc :=
  { device := "eth0", parent := "root", kind := "htb", handle := "1:",
    root := true, options := ⟨10, 0, 1000⟩, bytes := 1400, packets := 30,
    drops := 0, overlimits := 0, requeues := 0, backlog := 0, qlen := 0 }

/-! ### Lemmas about the validator and the collection loop -/

theorem foldl_append_filter {α : Type} (p : α → Bool) (l : List α) (acc : List α) :
    l.foldl (fun acc x => if p x then acc ++ [x] else acc) acc = acc ++ l.filter p := by
  induction l generalizing acc with
  | nil => simp
  | cons x xs ih =>
    by_cases h : p x <;>
      simp [List.foldl_cons, h, ih, List.filter_cons, List.append_assoc]

/-- The validation loop is exactly a filter: order preserved, duplicates
preserved, invalid names silently dropped. -/
theorem validateNics_eq_filter (env : Env) (nics : List String) :
    validateNics env nics = nics.filter env.ifaceExists := by
  simpa using foldl_append_filter env.ifaceExists nics []

/-- Every interface for which the loop invoked the external command is one
of the interfaces it was given. -/
theorem collectLoop_trace_subset {α : Type} (run : String → CmdResult α)
    (fix : String → α → α) :
    ∀ (l : List String) (acc : List α) (n : String),
      n ∈ (collectLoop run fix l acc).2 → n ∈ l := by
  intro l
  induction l with
  | nil => intro acc n h; simp [collectLoop] at h
  | cons nic rest ih =>
    intro acc n h
    cases hr : run nic with
    | cmdErr m =>
      simp [collectLoop, hr] at h
      simp [h]
    | jsonErr m =>
      simp [collectLoop, hr] at h
      simp [h]
    | ok recs =>
      simp only [collectLoop, hr, List.mem_cons] at h
      rcases h with h | h
      · simp [h]
      · exact List.mem_cons_of_mem _ (ih _ _ h)

/-- Characterization of a successful run of the collection loop: either no
interface was processed and the accumulator is returned unchanged, or every
interface's command succeeded and — because each decode RESETS the
accumulated slice — the result is the fixed-up decode of the LAST
interface alone. -/
theorem collectLoop_ok {α : Type} (run : String → CmdResult α)
    (fix : String → α → α) :
    ∀ (l : List String) (acc res : List α),
      (collectLoop run fix l acc).1 = .ok res →
      (l = [] ∧ res = acc) ∨
      ∃ nic recs, nic ∈ l ∧ l.getLast? = some nic ∧ run nic = .ok recs ∧
        res = recs.map (fix nic) := by
  intro l
  induction l with
  | nil =>
    intro acc res h
    simp [collectLoop] at h
    exact .inl ⟨rfl, h.symm⟩
  | cons nic rest ih =>
    intro acc res h
    cases hr : run nic with
    | cmdErr m => simp [collectLoop, hr] at h
    | jsonErr m => simp [collectLoop, hr] at h
    | ok recs =>
      simp only [collectLoop, hr] at h
      rcases ih _ _ h with ⟨hrest, hres⟩ | ⟨nic', recs', hmem, hlast, hrun, hres⟩
      · exact .inr ⟨nic, recs, by simp, by simp [hrest], hr, hres⟩
      · refine .inr ⟨nic', recs', List.mem_cons_of_mem _ hmem, ?_, hrun, hres⟩
        cases rest with
        | nil => simp at hmem
        | cons b t => rw [List.getLast?_cons_cons]; exact hlast

/-- If every interface before `nic` succeeds and the external command fails
for `nic`, the loop aborts there: it returns the command error with no
records, and the invoked interfaces are exactly those up to and including
`nic` — none of the remaining ones. -/
theorem collectLoop_cmdErr {α : Type} (run : String → CmdResult α)
    (fix : String → α → α) :
    ∀ (pre : List String) (nic : String) (post : List String) (acc : List α)
      (msg : String),
      (∀ m ∈ pre, (run m).isOk = true) → run nic = .cmdErr msg →
      collectLoop run fix (pre ++ nic :: post) acc =
        (.error ("command error: " ++ msg), pre ++ [nic]) := by
  intro pre
  induction pre with
  | nil =>
    intro nic post acc msg _ hr
    simp [collectLoop, hr]
  | cons m pre ih =>
    intro nic post acc msg hok hr
    have hm : (run m).isOk = true := hok m (by simp)
    cases hrm : run m with
    | cmdErr m2 => rw [hrm] at hm; simp [CmdResult.isOk] at hm
    | jsonErr m2 => rw [hrm] at hm; simp [CmdResult.isOk] at hm
    | ok recs =>
      have htail : ∀ x ∈ pre, (run x).isOk = true :=
        fun x hx => hok x (List.mem_cons_of_mem _ hx)
      simp [collectLoop, hrm, ih nic post _ msg htail hr]

/-! ### Lemmas about the per-record fix-up -/

theorem fixupClass_device (nic : String) (c : Class) :
    (fixupClass nic c).device = nic := by
  simp only [fixupClass]
  split <;> rfl

theorem fixupClass_root (nic : String) (c : Class) :
    (fixupClass nic c).root = c.root := by
  simp only [fixupClass]
  split <;> rfl

theorem fixupClass_parent_of_root (nic : String) (c : Class) (h : c.root = true) :
    (fixupClass nic c).parent = "root" := by
  simp [fixupClass, h]

theorem fixupQdisc_device (nic : String) (q : Qdisc) :
    (fixupQdisc nic q).device = nic := by
  simp only [fixupQdisc]
  split <;> rfl

theorem fixupQdisc_root (nic : String) (q : Qdisc) :
    (fixupQdisc nic q).root = q.root := by
  simp only [fixupQdisc]
  split <;> rfl

theorem fixupQdisc_parent_of_root (nic : String) (q : Qdisc) (h : q.root = true) :
    (fixupQdisc nic q).parent = "root" := by
  simp [fixupQdisc, h]

/-! ### Lemmas about the gauge model -/

theorem GaugeVec.mem_keys_set {L : Type} [DecidableEq L]
    (g : GaugeVec L) (k : L) (v : Int) (k' : L) :
    k' ∈ (GaugeVec.set g k v).keys ↔ k' ∈ g.keys ∨ k' = k := by
  induction g with
  | nil => simp [GaugeVec.set, GaugeVec.keys]
  | cons p g ih =>
    by_cases h : p.1 = k
    · subst h
      simp [GaugeVec.set, GaugeVec.keys]
      tauto
    · simp [GaugeVec.set, h, GaugeVec.keys] at ih ⊢
      tauto

theorem GaugeVec.get_set_self {L : Type} [DecidableEq L]
    (g : GaugeVec L) (k : L) (v : Int) :
    (GaugeVec.set g k v).get k = some v := by
  induction g with
  | nil => simp [GaugeVec.set, GaugeVec.get]
  | cons p g ih =>
    by_cases h : p.1 = k
    · simp [GaugeVec.set, h, GaugeVec.get]
    · simp [GaugeVec.set, h, GaugeVec.get, ih]

theorem GaugeVec.get_set_ne {L : Type} [DecidableEq L]
    (g : GaugeVec L) (k : L) (v : Int) (k' : L) (h : k' ≠ k) :
    (GaugeVec.set g k v).get k' = g.get k' := by
  have hne : ¬ k = k' := fun hh => h hh.symm
  induction g with
  | nil => simp [GaugeVec.set, GaugeVec.get, hne]
  | cons p g ih =>
    by_cases hp : p.1 = k
    · subst hp
      have hne' : ¬ p.1 = k' := fun hh => h hh.symm
      simp [GaugeVec.set, GaugeVec.get, hne']
    · simp only [GaugeVec.set, if_neg hp]
      by_cases hp' : p.1 = k'
      · simp [GaugeVec.get, hp']
      · simp [GaugeVec.get, hp', ih]

theorem Registry.mem_keys_setMany {L : Type} [DecidableEq L]
    (kvs : List ((String × L) × Int)) (g : Registry L) (k : String × L) :
    k ∈ (Registry.setMany g kvs).keys ↔ k ∈ g.keys ∨ k ∈ kvs.map Prod.fst := by
  induction kvs generalizing g with
  | nil => simp [Registry.setMany]
  | cons kv rest ih =>
    simp only [Registry.setMany, List.foldl_cons] at ih ⊢
    rw [ih, GaugeVec.mem_keys_set]
    simp
    tauto

theorem Registry.get_setMany_notMem {L : Type} [DecidableEq L]
    (kvs : List ((String × L) × Int)) (g : Registry L) (k : String × L)
    (h : k ∉ kvs.map Prod.fst) :
    (Registry.setMany g kvs).get k = g.get k := by
  induction kvs generalizing g with
  | nil => simp [Registry.setMany]
  | cons kv rest ih =>
    simp only [List.map_cons, List.mem_cons] at h
    push_neg at h
    simp only [Registry.setMany, List.foldl_cons] at ih ⊢
    rw [ih _ h.2, GaugeVec.get_set_ne _ _ _ _ h.1]

theorem Registry.get_setMany_of_mem {L : Type} [DecidableEq L]
    (kvs : List ((String × L) × Int)) (g : Registry L) (k : String × L) (v : Int)
    (hnd : (kvs.map Prod.fst).Nodup) (hm : (k, v) ∈ kvs) :
    (Registry.setMany g kvs).get k = some v := by
  induction kvs generalizing g with
  | nil => simp at hm
  | cons kv rest ih =>
    simp only [List.map_cons, List.nodup_cons] at hnd
    rcases List.mem_cons.mp hm with h | h
    · subst h
      have h1 : Registry.setMany g ((k, v) :: rest) =
          Registry.setMany (GaugeVec.set g k v) rest := rfl
      rw [h1, Registry.get_setMany_notMem _ _ _ hnd.1, GaugeVec.get_set_self]
    · have h1 : Registry.setMany g (kv :: rest) =
          Registry.setMany (GaugeVec.set g kv.1 kv.2) rest := rfl
      rw [h1]
      exact ih _ hnd.2 h

theorem Registry.mem_keys_foldl_setMany {L α : Type} [DecidableEq L]
    (kvsOf : α → List ((String × L) × Int)) (as : List α) (g : Registry L)
    (k : String × L) :
    k ∈ ((as.foldl (fun g a => Registry.setMany g (kvsOf a)) g)).keys ↔
      k ∈ g.keys ∨ ∃ a ∈ as, k ∈ (kvsOf a).map Prod.fst := by
  induction as generalizing g with
  | nil => simp
  | cons a as ih =>
    simp only [List.foldl_cons]
    rw [ih, Registry.mem_keys_setMany]
    simp
    tauto

theorem Registry.mem_tuples {L : Type} (g : Registry L) (l : L) :
    l ∈ Registry.tuples g ↔ ∃ k ∈ GaugeVec.keys g, k.2 = l := by
  simp [Registry.tuples, GaugeVec.keys, List.mem_map]

/-! ### Claims -/

/-- C1: evaluated at two valid interfaces each reporting one record, the
collector returns only the LAST interface's (fixed-up) record, not the
concatenation of both interfaces' records that the claim states: each
iteration's decode resets the accumulating slice, so every interface but
the last is silently dropped. -/
theorem c1_onlyLastInterfaceSurvives :
    collectMetricsClasses envC1 ["eth0", "eth1"] = .ok [classBfix1] ∧
    ¬ collectMetricsClasses envC1 ["eth0", "eth1"] =
        .ok [classAfix0, classBfix1] := by
  constructor
  · rfl
  · intro h
    have h2 : ([classBfix1] : List Class) = [classAfix0, classBfix1] :=
      Except.ok.inj h
    exact absurd h2 (by decide)

/-- C3 (amended): if the first failure along the validated interface list
is an external-command failure, both collectors abort right there: the
result is the bare wrapped command error (`"command error: " ++ msg`,
which does not name the failing interface) with no records, and commands
were invoked exactly for the interfaces up to and including the failing
one — none of the remaining ones. -/
theorem c3_commandFailureAborts :
    ∀ (env : Env) (nics pre : List String) (nic : String) (post : List String)
      (msg : String),
      (validateNics env nics = pre ++ nic :: post →
        (∀ m ∈ pre, (env.tcClass m).isOk = true) →
        env.tcClass nic = .cmdErr msg →
        collectMetricsClassesT env nics =
          (.error ("command error: " ++ msg), pre ++ [nic])) ∧
      (validateNics env nics = pre ++ nic :: post →
        (∀ m ∈ pre, (env.tcQdisc m).isOk = true) →
        env.tcQdisc nic = .cmdErr msg →
        collectMetricsQdiscsT env nics =
          (.error ("command error: " ++ msg), pre ++ [nic])) := by
  intro env nics pre nic post msg
  constructor
  · intro hv hok hr
    show collectLoop env.tcClass fixupClass (validateNics env nics) [] = _
    rw [hv]
    exact collectLoop_cmdErr _ _ pre nic post [] msg hok hr
  · intro hv hok hr
    show collectLoop env.tcQdisc fixupQdisc (validateNics env nics) [] = _
    rw [hv]
    exact collectLoop_cmdErr _ _ pre nic post [] msg hok hr

/-- C3 witness: on a host where the command fails for `eth0` with exit
status 1, the collector aborts with the wrapped error after invoking the
command only for `eth0`, never for `eth1`. -/
theorem c3_commandFailureAborts_witness :
    validateNics envErr ["eth0", "eth1"] = [] ++ "eth0" :: ["eth1"] ∧
    envErr.tcClass "eth0" = .cmdErr "exit status 1" ∧
    collectMetricsClassesT envErr ["eth0", "eth1"] =
      (.error ("command error: " ++ "exit status 1"), [] ++ ["eth0"]) :=
  ⟨rfl, rfl,
    (c3_commandFailureAborts envErr ["eth0", "eth1"] [] "eth0" ["eth1"]
      "exit status 1").1 rfl (by intro m hm; cases hm) rfl⟩

/-- C3 counterexample (to "identifying the failing interface's context"):
two hosts on which DIFFERENT interfaces fail — on `envErr` the command
fails already for `eth0`, on `envErrB` it fails only for `eth1` — produce
the IDENTICAL error value, so the returned error does not identify the
failing interface; only the invocation traces differ. -/
theorem c3_errorDoesNotNameInterface :
    collectMetricsClassesT envErr ["eth0", "eth1"] =
      (.error "command error: exit status 1", ["eth0"]) ∧
    collectMetricsClassesT envErrB ["eth0", "eth1"] =
      (.error "command error: exit status 1", ["eth0", "eth1"]) :=
  ⟨rfl, rfl⟩

/-- C4: in every successful collection (class or qdisc), a record whose
root flag is true has parent field exactly "root" — whatever parent the
decoded upstream JSON supplied — and hence its published label tuple
carries parent "root". -/
theorem c4_rootRecordsGetRootParent :
    (∀ (env : Env) (nics : List String) (res : List Class),
       collectMetricsClasses env nics = .ok res →
       ∀ c ∈ res, c.root = true →
         c.parent = "root" ∧ (classLabels c).parent = "root") ∧
    (∀ (env : Env) (nics : List String) (res : List Qdisc),
       collectMetricsQdiscs env nics = .ok res →
       ∀ q ∈ res, q.root = true →
         q.parent = "root" ∧ (qdiscLabels q).parent = "root") := by
  constructor
  · intro env nics res h c hc hroot
    rcases collectLoop_ok env.tcClass fixupClass _ _ _ h with
      ⟨_, hres⟩ | ⟨nic, recs, _, _, _, hres⟩
    · subst hres; cases hc
    · subst hres
      rcases List.mem_map.mp hc with ⟨r, _, rfl⟩
      have hp : (fixupClass nic r).parent = "root" := by
        apply fixupClass_parent_of_root
        rw [← fixupClass_root nic r]
        exact hroot
      exact ⟨hp, by simp [classLabels, hp]⟩
  · intro env nics res h q hq hroot
    rcases collectLoop_ok env.tcQdisc fixupQdisc _ _ _ h with
      ⟨_, hres⟩ | ⟨nic, recs, _, _, _, hres⟩
    · subst hres; cases hq
    · subst hres
      rcases List.mem_map.mp hq with ⟨r, _, rfl⟩
      have hp : (fixupQdisc nic r).parent = "root" := by
        apply fixupQdisc_parent_of_root
        rw [← fixupQdisc_root nic r]
        exact hroot
      exact ⟨hp, by simp [qdiscLabels, hp]⟩

/-- C4 witness: collecting on `envOk` returns the root class `classBfix0`
(upstream parent was the empty string) with parent "root". -/
theorem c4_rootRecordsGetRootParent_witness :
    collectMetricsClasses envOk ["eth0"] = .ok [classAfix0, classBfix0] ∧
    classBfix0.root = true ∧ classBfix0.parent = "root" :=
  ⟨rfl, rfl,
    ((c4_rootRecordsGetRootParent.1 envOk ["eth0"] [classAfix0, classBfix0]
      rfl classBfix0 (by simp) rfl).1)⟩

/-- C5: every successful collection either is empty or consists exactly of
the fixed-up decode of one valid interface `nic` — the interface the
records were collected from — and every returned record's device field
equals that interface. -/
theorem c5_deviceEqualsSourceInterface :
    (∀ (env : Env) (nics : List String) (res : List Class),
       collectMetricsClasses env nics = .ok res →
       res = [] ∨ ∃ nic recs, nic ∈ validateNics env nics ∧
         env.tcClass nic = .ok recs ∧ res = recs.map (fixupClass nic) ∧
         ∀ c ∈ res, c.device = nic) ∧
    (∀ (env : Env) (nics : List String) (res : List Qdisc),
       collectMetricsQdiscs env nics = .ok res →
       res = [] ∨ ∃ nic recs, nic ∈ validateNics env nics ∧
         env.tcQdisc nic = .ok recs ∧ res = recs.map (fixupQdisc nic) ∧
         ∀ q ∈ res, q.device = nic) := by
  constructor
  · intro env nics res h
    rcases collectLoop_ok env.tcClass fixupClass _ _ _ h with
      ⟨_, hres⟩ | ⟨nic, recs, hmem, _, hrun, hres⟩
    · exact .inl hres
    · refine .inr ⟨nic, recs, hmem, hrun, hres, ?_⟩
      intro c hc
      rw [hres] at hc
      rcases List.mem_map.mp hc with ⟨r, _, rfl⟩
      exact fixupClass_device nic r
  · intro env nics res h
    rcases collectLoop_ok env.tcQdisc fixupQdisc _ _ _ h with
      ⟨_, hres⟩ | ⟨nic, recs, hmem, _, hrun, hres⟩
    · exact .inl hres
    · refine .inr ⟨nic, recs, hmem, hrun, hres, ?_⟩
      intro q hq
      rw [hres] at hq
      rcases List.mem_map.mp hq with ⟨r, _, rfl⟩
      exact fixupQdisc_device nic r

/-- C5 witness: on `envOk`, whose records carry no device field upstream,
both returned records come back with device `eth0`. -/
theorem c5_deviceEqualsSourceInterface_witness :
    collectMetricsClasses envOk ["eth0"] = .ok [classAfix0, classBfix0] ∧
    classAfix0.device = "eth0" ∧ classBfix0.device = "eth0" := by
  refine ⟨rfl, ?_, ?_⟩ <;>
  · rcases c5_deviceEqualsSourceInterface.1 envOk ["eth0"]
      [classAfix0, classBfix0] rfl with h | ⟨nic, recs, hmem, _, _, hdev⟩
    · exact absurd h (by decide)
    · have hv : validateNics envOk ["eth0"] = ["eth0"] := rfl
      rw [hv] at hmem
      have hnic : nic = "eth0" := by simpa using hmem
      subst hnic
      exact hdev _ (by simp)

/-- C6: the validator is exactly the filter of the configured list by OS
resolution — an order- and duplicate-preserving subsequence of the input,
containing precisely the names that resolve — and every interface for
which either collector invoked the external command is one that resolves,
so no command is ever issued for a name absent from the host. -/
theorem c6_validatorIsFilter :
    ∀ (env : Env) (nics : List String),
      validateNics env nics = nics.filter env.ifaceExists ∧
      (validateNics env nics).Sublist nics ∧
      (∀ n ∈ validateNics env nics, env.ifaceExists n = true) ∧
      (∀ n ∈ (collectMetricsClassesT env nics).2, env.ifaceExists n = true) ∧
      (∀ n ∈ (collectMetricsQdiscsT env nics).2, env.ifaceExists n = true) := by
  intro env nics
  have hf := validateNics_eq_filter env nics
  refine ⟨hf, ?_, ?_, ?_, ?_⟩
  · rw [hf]; exact List.filter_sublist nics
  · intro n hn; rw [hf] at hn; exact List.of_mem_filter hn
  · intro n hn
    have hmem := collectLoop_trace_subset env.tcClass fixupClass
      (validateNics env nics) [] n hn
    rw [hf] at hmem
    exact List.of_mem_filter hmem
  · intro n hn
    have hmem := collectLoop_trace_subset env.tcQdisc fixupQdisc
      (validateNics env nics) [] n hn
    rw [hf] at hmem
    exact List.of_mem_filter hmem

/-- C6 witness: with `["eth0", "ppp0", "eth0"]` configured and only `eth0`
live, validation yields `["eth0", "eth0"]` (order and duplicates kept,
`ppp0` silently dropped), only `eth0` is ever queried, and the theorem
recovers that every queried name resolves. -/
theorem c6_validatorIsFilter_witness :
    validateNics envOk ["eth0", "ppp0", "eth0"] = ["eth0", "eth0"] ∧
    (collectMetricsClassesT envOk ["eth0", "ppp0", "eth0"]).2 =
      ["eth0", "eth0"] ∧
    envOk.ifaceExists "ppp0" = false ∧
    envOk.ifaceExists "eth0" = true := by
  refine ⟨rfl, rfl, rfl, ?_⟩
  exact (c6_validatorIsFilter envOk ["eth0", "ppp0", "eth0"]).2.2.1 "eth0"
    (by decide)

/-- C2 (amended): in the two-registry variant, a collector error (from the
class collection, or from the qdisc collection after classes succeeded)
makes both exposition endpoints respond 500 with the error's message and
leaves the group exactly as the initial reset left it — cleared.  In the
earliest variant the reset only runs after a successful decode, so an
erroring request also responds 500 and sets no gauge from that request,
but the group keeps the previous request's values instead of being left
cleared. -/
theorem c2_collectorErrorResponse :
    (∀ (env : Env) (nics : List String) (g0 : Registry Labels) (e : String),
       (collectMetricsClasses env nics = .error e ∨
         (∃ cs, collectMetricsClasses env nics = .ok cs ∧
           collectMetricsQdiscs env nics = .error e)) →
       metricsHandler env nics g0 = (.err 500 e, []) ∧
       paramsHandler env nics g0 = (.err 500 e, [])) ∧
    (∀ (nic m : String) (g0 : Registry Labels0),
       metricsHandlerV0 nic (.cmdErr m) g0 =
         (.err 500 ("Failed to execute command: " ++ m), g0)) ∧
    (∀ (nic m : String) (g0 : Registry Labels0),
       metricsHandlerV0 nic (.jsonErr m) g0 =
         (.err 500 ("Failed to parse JSON: " ++ m), g0)) := by
  refine ⟨?_, fun nic m g0 => rfl, fun nic m g0 => rfl⟩
  intro env nics g0 e h
  rcases h with h | ⟨cs, hcs, hqs⟩
  · rcases hct : collectMetricsClassesT env nics with ⟨r, t⟩
    have hr : r = .error e := by
      have h1 : (collectMetricsClassesT env nics).1 = .error e := h
      rw [hct] at h1
      exact h1
    subst hr
    constructor <;>
      simp [metricsHandler, paramsHandler, metricsHandlerT, paramsHandlerT, hct]
  · rcases hct : collectMetricsClassesT env nics with ⟨r, t⟩
    have hr : r = .ok cs := by
      have h1 : (collectMetricsClassesT env nics).1 = .ok cs := hcs
      rw [hct] at h1
      exact h1
    subst hr
    rcases hqt : collectMetricsQdiscsT env nics with ⟨r2, t2⟩
    have hr2 : r2 = .error e := by
      have h1 : (collectMetricsQdiscsT env nics).1 = .error e := hqs
      rw [hqt] at h1
      exact h1
    subst hr2
    constructor <;>
      simp [metricsHandler, paramsHandler, metricsHandlerT, paramsHandlerT,
        hct, hqt]

/-- C2 witness: on a host where the command fails, `/metrics` answers 500
carrying the wrapped error text and the statistics group is left empty. -/
theorem c2_collectorErrorResponse_witness :
    collectMetricsClasses envErr ["eth0"] =
      .error "command error: exit status 1" ∧
    metricsHandler envErr ["eth0"] [] =
      (.err 500 "command error: exit status 1", []) :=
  ⟨rfl,
    (c2_collectorErrorResponse.1 envErr ["eth0"] []
      "command error: exit status 1" (.inl rfl)).1⟩

/-- C2 counterexample: in the earliest variant, after a successful scrape
populated the gauges, a failing request responds 500 but the group is NOT
"left cleared": it still holds every value of the previous scrape, e.g.
the bytes gauge still carries 500 for (htb, 1:10). -/
theorem c2_staleValuesSurviveError :
    (metricsHandlerV0 "eth0" (.cmdErr "boom") v0Populated).1 =
      .err 500 "Failed to execute command: boom" ∧
    (metricsHandlerV0 "eth0" (.cmdErr "boom") v0Populated).2 = v0Populated ∧
    v0Populated ≠ [] ∧
    GaugeVec.get (metricsHandlerV0 "eth0" (.cmdErr "boom") v0Populated).2
      ("tc_class_stats_bytes", ("htb", "1:10")) = some 500 :=
  ⟨rfl, rfl, by decide, by decide⟩

/-- C9: when no configured name resolves to a live interface (the
validated list is empty), both collectors return a successful empty record
list and both endpoints answer 200 with an empty registry — an all-invalid
configuration is not an error condition. -/
theorem c9_allInvalidYieldsEmptySuccess :
    ∀ (env : Env) (nics : List String) (g0 : Registry Labels),
      validateNics env nics = [] →
      collectMetricsClasses env nics = .ok [] ∧
      collectMetricsQdiscs env nics = .ok [] ∧
      metricsHandler env nics g0 = (.ok [], []) ∧
      paramsHandler env nics g0 = (.ok [], []) := by
  intro env nics g0 hv
  have hct : collectMetricsClassesT env nics = (.ok [], []) := by
    show collectLoop env.tcClass fixupClass (validateNics env nics) [] = _
    rw [hv]
    rfl
  have hqt : collectMetricsQdiscsT env nics = (.ok [], []) := by
    show collectLoop env.tcQdisc fixupQdisc (validateNics env nics) [] = _
    rw [hv]
    rfl
  refine ⟨?_, ?_, ?_, ?_⟩
  · show (collectMetricsClassesT env nics).1 = _
    rw [hct]
  · show (collectMetricsQdiscsT env nics).1 = _
    rw [hqt]
  · simp [metricsHandler, metricsHandlerT, hct, hqt]
  · simp [paramsHandler, paramsHandlerT, hct, hqt]

/-- C9 witness: with no live interface at all, the request succeeds with
an empty body. -/
theorem c9_allInvalidYieldsEmptySuccess_witness :
    validateNics envNone ["eth0"] = [] ∧
    metricsHandler envNone ["eth0"] [] = (.ok [], []) :=
  ⟨rfl, (c9_allInvalidYieldsEmptySuccess envNone ["eth0"] [] rfl).2.2.1⟩

/-- After populating an empty statistics registry from the collections
`cs` and `qs`, the label tuples carrying a sample are exactly the tuples
of the records. -/
theorem mem_tuples_statsPopulate (cs : List Class) (qs : List Qdisc) (l : Labels) :
    l ∈ Registry.tuples
        (qs.foldl setQdiscStats (cs.foldl setClassStats ([] : Registry Labels))) ↔
      (∃ c ∈ cs, classLabels c = l) ∨ ∃ q ∈ qs, qdiscLabels q = l := by
  rw [Registry.mem_tuples]
  constructor
  · rintro ⟨k, hk, rfl⟩
    rcases (Registry.mem_keys_foldl_setMany qdiscStatsKVs qs _ k).mp hk with
      hk2 | ⟨q, hq, hkq⟩
    · rcases (Registry.mem_keys_foldl_setMany classStatsKVs cs _ k).mp hk2 with
        hk3 | ⟨c, hc, hkc⟩
      · simp [GaugeVec.keys] at hk3
      · left
        refine ⟨c, hc, ?_⟩
        simp [classStatsKVs] at hkc
        rcases hkc with rfl | rfl | rfl | rfl | rfl | rfl | rfl <;> rfl
    · right
      refine ⟨q, hq, ?_⟩
      simp [qdiscStatsKVs] at hkq
      rcases hkq with rfl | rfl | rfl | rfl | rfl | rfl | rfl <;> rfl
  · rintro (⟨c, hc, rfl⟩ | ⟨q, hq, rfl⟩)
    · refine ⟨("tc_class_stats_bytes", classLabels c), ?_, rfl⟩
      apply (Registry.mem_keys_foldl_setMany qdiscStatsKVs qs _ _).mpr
      left
      apply (Registry.mem_keys_foldl_setMany classStatsKVs cs _ _).mpr
      right
      exact ⟨c, hc, by simp [classStatsKVs]⟩
    · refine ⟨("tc_qdisc_bytes", qdiscLabels q), ?_, rfl⟩
      apply (Registry.mem_keys_foldl_setMany qdiscStatsKVs qs _ _).mpr
      right
      exact ⟨q, hq, by simp [qdiscStatsKVs]⟩

/-- Same fact for the parameters registry. -/
theorem mem_tuples_paramsPopulate (cs : List Class) (qs : List Qdisc) (l : Labels) :
    l ∈ Registry.tuples
        (qs.foldl setQdiscParams (cs.foldl setClassParams ([] : Registry Labels))) ↔
      (∃ c ∈ cs, classLabels c = l) ∨ ∃ q ∈ qs, qdiscLabels q = l := by
  rw [Registry.mem_tuples]
  constructor
  · rintro ⟨k, hk, rfl⟩
    rcases (Registry.mem_keys_foldl_setMany qdiscParamsKVs qs _ k).mp hk with
      hk2 | ⟨q, hq, hkq⟩
    · rcases (Registry.mem_keys_foldl_setMany classParamsKVs cs _ k).mp hk2 with
        hk3 | ⟨c, hc, hkc⟩
      · simp [GaugeVec.keys] at hk3
      · left
        refine ⟨c, hc, ?_⟩
        simp [classParamsKVs] at hkc
        rcases hkc with rfl | rfl | rfl | rfl | rfl <;> rfl
    · right
      refine ⟨q, hq, ?_⟩
      simp [qdiscParamsKVs] at hkq
      rcases hkq with rfl | rfl | rfl <;> rfl
  · rintro (⟨c, hc, rfl⟩ | ⟨q, hq, rfl⟩)
    · refine ⟨("tc_class_prio", classLabels c), ?_, rfl⟩
      apply (Registry.mem_keys_foldl_setMany qdiscParamsKVs qs _ _).mpr
      left
      apply (Registry.mem_keys_foldl_setMany classParamsKVs cs _ _).mpr
      right
      exact ⟨c, hc, by simp [classParamsKVs]⟩
    · refine ⟨("tc_qdisc_options_r2q", qdiscLabels q), ?_, rfl⟩
      apply (Registry.mem_keys_foldl_setMany qdiscParamsKVs qs _ _).mpr
      right
      exact ⟨q, hq, by simp [qdiscParamsKVs]⟩

/-- C7: after any successful request to either exposition endpoint, the
label tuples carrying a sample in the response are exactly the label
tuples of the records of that request's collection — a tuple from an
earlier scrape that is absent from the current collection does not occur,
whatever gauge state `g0` preceded the request. -/
theorem c7_responseTuplesMatchCollection :
    ∀ (env : Env) (nics : List String) (g0 : Registry Labels)
      (cs : List Class) (qs : List Qdisc),
      collectMetricsClasses env nics = .ok cs →
      collectMetricsQdiscs env nics = .ok qs →
      (∃ g, metricsHandler env nics g0 = (.ok g, g) ∧
        ∀ l, l ∈ Registry.tuples g ↔
          (∃ c ∈ cs, classLabels c = l) ∨ ∃ q ∈ qs, qdiscLabels q = l) ∧
      (∃ g, paramsHandler env nics g0 = (.ok g, g) ∧
        ∀ l, l ∈ Registry.tuples g ↔
          (∃ c ∈ cs, classLabels c = l) ∨ ∃ q ∈ qs, qdiscLabels q = l) := by
  intro env nics g0 cs qs hcs hqs
  rcases hct : collectMetricsClassesT env nics with ⟨r, t1⟩
  have hr : r = .ok cs := by
    have h1 : (collectMetricsClassesT env nics).1 = .ok cs := hcs
    rw [hct] at h1
    exact h1
  subst hr
  rcases hqt : collectMetricsQdiscsT env nics with ⟨r2, t2⟩
  have hr2 : r2 = .ok qs := by
    have h1 : (collectMetricsQdiscsT env nics).1 = .ok qs := hqs
    rw [hqt] at h1
    exact h1
  subst hr2
  constructor
  · refine ⟨qs.foldl setQdiscStats (cs.foldl setClassStats []), ?_, ?_⟩
    · simp [metricsHandler, metricsHandlerT, hct, hqt]
    · intro l
      exact mem_tuples_statsPopulate cs qs l
  · refine ⟨qs.foldl setQdiscParams (cs.foldl setClassParams []), ?_, ?_⟩
    · simp [paramsHandler, paramsHandlerT, hct, hqt]
    · intro l
      exact mem_tuples_paramsPopulate cs qs l

/-- C7 witness: on `envOk` the `/metrics` response carries exactly the
tuples of the two classes and the qdisc; a tuple from a hypothetical
previous scrape (handle 9:9) does not appear. -/
theorem c7_responseTuplesMatchCollection_witness :
    collectMetricsClasses envOk ["eth0"] = .ok [classAfix0, classBfix0] ∧
    collectMetricsQdiscs envOk ["eth0"] = .ok [qdiscAfix0] ∧
    ∃ g, metricsHandler envOk ["eth0"] [] = (.ok g, g) ∧
      classLabels classAfix0 ∈ Registry.tuples g ∧
      (⟨"htb", "9:9", "root", "eth0"⟩ : Labels) ∉ Registry.tuples g := by
  refine ⟨rfl, rfl, ?_⟩
  obtain ⟨⟨g, hg, hiff⟩, _⟩ :=
    c7_responseTuplesMatchCollection envOk ["eth0"] []
      [classAfix0, classBfix0] [qdiscAfix0] rfl rfl
  refine ⟨g, hg, ?_, ?_⟩
  · exact (hiff _).mpr (.inl ⟨classAfix0, by simp, rfl⟩)
  · intro hmem
    rcases (hiff _).mp hmem with ⟨c, hc, hl⟩ | ⟨q, hq, hl⟩
    · simp only [List.mem_cons, List.not_mem_nil, or_false] at hc
      rcases hc with rfl | rfl <;>
        simp [classLabels, classAfix0, classBfix0] at hl
    · simp only [List.mem_cons, List.not_mem_nil, or_false] at hq
      subst hq
      simp [qdiscLabels, qdiscAfix0] at hl

theorem isSet_of_mem_setEvs {L α : Type} (f : α → List ((String × L) × Int))
    (as : List α) (e : Ev)
    (h : e ∈ (as.map (fun a => setEvsOf (f a))).flatten) : e.isSet = true := by
  rcases List.mem_flatten.mp h with ⟨l, hl, hel⟩
  rcases List.mem_map.mp hl with ⟨a, _, rfl⟩
  rcases List.mem_map.mp hel with ⟨kv, _, rfl⟩
  rfl

theorem isCmd_of_mem_cmdMap (kind : String) (t : List String) (e : Ev)
    (h : e ∈ t.map (Ev.cmd kind)) : e.isCmd = true := by
  rcases List.mem_map.mp h with ⟨n, _, rfl⟩
  rfl

/-- C8 (amended): in the two-registry variant, every request to either
endpoint emits, in order: the group's reset events, then the collection
phase's external-command invocations, then — on success — only gauge-set
events followed by the final serialization, or — on a collector error —
the 500 response with no set event at all.  In the earliest variant the
command invocation comes FIRST and the resets follow a successful
collection; there too no gauge is set before collection completed and
serialization is last. -/
theorem c8_requestEventOrder :
    (∀ (env : Env) (nics : List String) (g0 : Registry Labels),
      ∃ tCmd tSet tEnd,
        (metricsHandlerT env nics g0).2.2 =
          statsResetEvs ++ tCmd ++ tSet ++ tEnd ∧
        (∀ e ∈ tCmd, e.isCmd = true) ∧ (∀ e ∈ tSet, e.isSet = true) ∧
        (tEnd = [Ev.serialize] ∨ (tSet = [] ∧ tEnd = [Ev.httpError 500]))) ∧
    (∀ (env : Env) (nics : List String) (g0 : Registry Labels),
      ∃ tCmd tSet tEnd,
        (paramsHandlerT env nics g0).2.2 =
          paramsResetEvs ++ tCmd ++ tSet ++ tEnd ∧
        (∀ e ∈ tCmd, e.isCmd = true) ∧ (∀ e ∈ tSet, e.isSet = true) ∧
        (tEnd = [Ev.serialize] ∨ (tSet = [] ∧ tEnd = [Ev.httpError 500]))) ∧
    (∀ (nic : String) (out : CmdResult Class0) (g0 : Registry Labels0),
      (∃ tSet, (metricsHandlerV0T nic out g0).2.2 =
          [Ev.cmd "class" nic] ++ v0ResetEvs ++ tSet ++ [Ev.serialize] ∧
          ∀ e ∈ tSet, e.isSet = true) ∨
      (metricsHandlerV0T nic out g0).2.2 =
        [Ev.cmd "class" nic, Ev.httpError 500]) := by
  refine ⟨?_, ?_, ?_⟩
  · intro env nics g0
    rcases hct : collectMetricsClassesT env nics with ⟨r, t1⟩
    cases r with
    | error e =>
      refine ⟨t1.map (Ev.cmd "class"), [], [Ev.httpError 500], ?_,
        isCmd_of_mem_cmdMap "class" t1, (by intro e he; cases he),
        .inr ⟨rfl, rfl⟩⟩
      simp [metricsHandlerT, hct]
    | ok cs =>
      rcases hqt : collectMetricsQdiscsT env nics with ⟨r2, t2⟩
      cases r2 with
      | error e =>
        refine ⟨t1.map (Ev.cmd "class") ++ t2.map (Ev.cmd "qdisc"), [],
          [Ev.httpError 500], ?_, ?_, (by intro e he; cases he),
          .inr ⟨rfl, rfl⟩⟩
        · simp [metricsHandlerT, hct, hqt]
        · intro e he
          rcases List.mem_append.mp he with he | he
          · exact isCmd_of_mem_cmdMap _ _ _ he
          · exact isCmd_of_mem_cmdMap _ _ _ he
      | ok qs =>
        refine ⟨t1.map (Ev.cmd "class") ++ t2.map (Ev.cmd "qdisc"),
          (cs.map (fun c => setEvsOf (classStatsKVs c))).flatten ++
            (qs.map (fun q => setEvsOf (qdiscStatsKVs q))).flatten,
          [Ev.serialize], ?_, ?_, ?_, .inl rfl⟩
        · simp [metricsHandlerT, hct, hqt]
        · intro e he
          rcases List.mem_append.mp he with he | he
          · exact isCmd_of_mem_cmdMap _ _ _ he
          · exact isCmd_of_mem_cmdMap _ _ _ he
        · intro e he
          rcases List.mem_append.mp he with he | he
          · exact isSet_of_mem_setEvs _ _ _ he
          · exact isSet_of_mem_setEvs _ _ _ he
  · intro env nics g0
    rcases hct : collectMetricsClassesT env nics with ⟨r, t1⟩
    cases r with
    | error e =>
      refine ⟨t1.map (Ev.cmd "class"), [], [Ev.httpError 500], ?_,
        isCmd_of_mem_cmdMap "class" t1, (by intro e he; cases he),
        .inr ⟨rfl, rfl⟩⟩
      simp [paramsHandlerT, hct]
    | ok cs =>
      rcases hqt : collectMetricsQdiscsT env nics with ⟨r2, t2⟩
      cases r2 with
      | error e =>
        refine ⟨t1.map (Ev.cmd "class") ++ t2.map (Ev.cmd "qdisc"), [],
          [Ev.httpError 500], ?_, ?_, (by intro e he; cases he),
          .inr ⟨rfl, rfl⟩⟩
        · simp [paramsHandlerT, hct, hqt]
        · intro e he
          rcases List.mem_append.mp he with he | he
          · exact isCmd_of_mem_cmdMap _ _ _ he
          · exact isCmd_of_mem_cmdMap _ _ _ he
      | ok qs =>
        refine ⟨t1.map (Ev.cmd "class") ++ t2.map (Ev.cmd "qdisc"),
          (cs.map (fun c => setEvsOf (classParamsKVs c))).flatten ++
            (qs.map (fun q => setEvsOf (qdiscParamsKVs q))).flatten,
          [Ev.serialize], ?_, ?_, ?_, .inl rfl⟩
        · simp [paramsHandlerT, hct, hqt]
        · intro e he
          rcases List.mem_append.mp he with he | he
          · exact isCmd_of_mem_cmdMap _ _ _ he
          · exact isCmd_of_mem_cmdMap _ _ _ he
        · intro e he
          rcases List.mem_append.mp he with he | he
          · exact isSet_of_mem_setEvs _ _ _ he
          · exact isSet_of_mem_setEvs _ _ _ he
  · intro nic out g0
    cases out with
    | cmdErr m => exact .inr rfl
    | jsonErr m => exact .inr rfl
    | ok cs =>
      refine .inl ⟨(cs.map (fun c => setEvsOf (class0KVs c))).flatten, ?_,
        isSet_of_mem_setEvs _ _⟩
      simp [metricsHandlerV0T]

/-- C8 witness: the event-order theorem applied to a concrete erroring
request of the two-registry variant. -/
theorem c8_requestEventOrder_witness :
    ∃ tCmd tSet tEnd,
      (metricsHandlerT envErr ["eth0"] []).2.2 =
        statsResetEvs ++ tCmd ++ tSet ++ tEnd ∧
      (∀ e ∈ tCmd, e.isCmd = true) ∧ (∀ e ∈ tSet, e.isSet = true) ∧
      (tEnd = [Ev.serialize] ∨ (tSet = [] ∧ tEnd = [Ev.httpError 500])) :=
  c8_requestEventOrder.1 envErr ["eth0"] []

/-- C8 counterexample: in the earliest variant a successful request's very
first event is the external-command invocation, not a gauge clear, while
the request does clear gauges later — refuting "first clear every gauge of
that endpoint's group, then run the Collector". -/
theorem c8_v0CollectsBeforeClearing :
    ((metricsHandlerV0T "eth0" (.ok [class0A]) []).2.2).head? =
      some (Ev.cmd "class" "eth0") ∧
    Ev.reset "tc_class_root" ∈ (metricsHandlerV0T "eth0" (.ok [class0A]) []).2.2 ∧
    (Ev.reset "tc_class_root").isReset = true ∧
    (Ev.cmd "class" "eth0").isReset = false :=
  ⟨rfl, by decide, rfl, rfl⟩

theorem classStatsKVs_nodupKeys (c : Class) :
    ((classStatsKVs c).map Prod.fst).Nodup := by
  simp [classStatsKVs]

theorem qdiscStatsKVs_nodupKeys (q : Qdisc) :
    ((qdiscStatsKVs q).map Prod.fst).Nodup := by
  simp [qdiscStatsKVs]

theorem classParamsKVs_nodupKeys (c : Class) :
    ((classParamsKVs c).map Prod.fst).Nodup := by
  simp [classParamsKVs]

theorem qdiscParamsKVs_nodupKeys (q : Qdisc) :
    ((qdiscParamsKVs q).map Prod.fst).Nodup := by
  simp [qdiscParamsKVs]

/-- C10 (amended): every value the handlers publish is the
round-to-nearest-even `float64` conversion of the record's integer field —
publishing a record stores in each gauge exactly the converted value of
its KV list, the conversion is the identity on every integer of magnitude
at most 2^53 (so such counters are published exactly), and 2^53 + 1 is
published as 2^53.  Above 2^53 the published value MAY differ from the
true integer but need not: see the counterexample with 2^54. -/
theorem c10_publishedValuesAreRoundedDoubles :
    (∀ n : Nat, n ≤ 2 ^ 53 → roundF64 n = n) ∧
    (∀ z : Int, z.natAbs ≤ 2 ^ 53 → roundF64Int z = z) ∧
    (∀ (g : Registry Labels) (c : Class) (k : String × Labels) (v : Int),
       (k, v) ∈ classStatsKVs c →
       GaugeVec.get (setClassStats g c) k = some v) ∧
    (∀ (g : Registry Labels) (q : Qdisc) (k : String × Labels) (v : Int),
       (k, v) ∈ qdiscStatsKVs q →
       GaugeVec.get (setQdiscStats g q) k = some v) ∧
    (∀ (g : Registry Labels) (c : Class) (k : String × Labels) (v : Int),
       (k, v) ∈ classParamsKVs c →
       GaugeVec.get (setClassParams g c) k = some v) ∧
    (∀ (g : Registry Labels) (q : Qdisc) (k : String × Labels) (v : Int),
       (k, v) ∈ qdiscParamsKVs q →
       GaugeVec.get (setQdiscParams g q) k = some v) ∧
    roundF64 (2 ^ 53 + 1) = 2 ^ 53 ∧
    roundF64 (2 ^ 53 + 1) ≠ 2 ^ 53 + 1 := by
  refine ⟨?_, ?_, ?_, ?_, ?_, ?_, by decide, by decide⟩
  · intro n h
    unfold roundF64
    rw [if_pos h]
  · intro z h
    have h1 : roundF64 z.natAbs = z.natAbs := by
      unfold roundF64
      rw [if_pos h]
    unfold roundF64Int
    rw [h1]
    exact Int.sign_mul_natAbs z
  · intro g c k v hm
    exact Registry.get_setMany_of_mem _ _ _ _ (classStatsKVs_nodupKeys c) hm
  · intro g q k v hm
    exact Registry.get_setMany_of_mem _ _ _ _ (qdiscStatsKVs_nodupKeys q) hm
  · intro g c k v hm
    exact Registry.get_setMany_of_mem _ _ _ _ (classParamsKVs_nodupKeys c) hm
  · intro g q k v hm
    exact Registry.get_setMany_of_mem _ _ _ _ (qdiscParamsKVs_nodupKeys q) hm

/-- C10 witness: the bytes counter 500 (at most 2^53) is published exactly
as 500. -/
theorem c10_publishedValuesAreRoundedDoubles_witness :
    (500 : Nat) ≤ 2 ^ 53 ∧ roundF64 500 = 500 ∧
    GaugeVec.get (setClassStats [] classAfix0)
      ("tc_class_stats_bytes", classLabels classAfix0) = some 500 := by
  refine ⟨by decide, c10_publishedValuesAreRoundedDoubles.1 500 (by decide), ?_⟩
  have h := c10_publishedValuesAreRoundedDoubles.2.2.1 [] classAfix0
    ("tc_class_stats_bytes", classLabels classAfix0)
    (roundF64 classAfix0.stats.bytes : Int) (by simp [classStatsKVs])
  rw [h]
  decide

/-- C10 counterexample (to "counters above 2^53 are published rounded
rather than exact"): the bytes counter 2^54 exceeds 2^53 yet is published
exactly equal to the true integer. -/
theorem c10_largeCounterPublishedExactly :
    2 ^ 53 < classBig.stats.bytes ∧
    roundF64 classBig.stats.bytes = classBig.stats.bytes ∧
    GaugeVec.get (setClassStats [] classBig)
      ("tc_class_stats_bytes", classLabels classBig) =
      some (classBig.stats.bytes : Int) :=
  ⟨by decide, by decide, by decide⟩

end TcExporter
